import Mathlib

/-!
Shallow embedding of the state-synchronization and command-dispatch engine of
the `bambulabs_api` client (`bambulabs_api/mqtt_client.py` and
`bambulabs_api/client.py`).

Python values occurring in reports and commands are modelled by `JVal`;
Python `dict`s become association lists with unique keys, floats become exact
rationals (no floating-point arithmetic is exercised anywhere in this
development except the fan-speed conversion, whose inputs and outputs are all
exactly representable), fallible Python code returns `Except String`.
-/

namespace Bambu

/-- A Python/JSON value as it occurs in MQTT payloads: `None`, `bool`, `int`,
`float` (modelled exactly as a rational), `str`, `list`, `dict`. -/
inductive JVal where
  | null : JVal
  | bool (b : Bool) : JVal
  | int (n : Int) : JVal
  | float (q : ℚ) : JVal
  | str (s : String) : JVal
  | arr (xs : List JVal) : JVal
  | obj (kvs : List (String × JVal)) : JVal

/-- Python `dict` lookup (`d.get(k)`): first binding of the key, if any.
Dictionaries built by `json.loads` have unique keys. -/
def dget {α : Type} [DecidableEq α] {β : Type} :
    List (α × β) → α → Option β
  | [], _ => none
  | (k', v) :: rest, k => if k' = k then some v else dget rest k

/-- Python `d[k] = v`: overwrite the binding if the key is present, append
otherwise. -/
def dinsert {α : Type} [DecidableEq α] {β : Type} :
    List (α × β) → α → β → List (α × β)
  | [], k, v => [(k, v)]
  | (k', v') :: rest, k, v =>
      if k' = k then (k', v) :: rest else (k', v') :: dinsert rest k v

/-- Python `d |= e` for two dicts: key-wise right-biased shallow merge. -/
def dmerge {α : Type} [DecidableEq α] {β : Type}
    (d e : List (α × β)) : List (α × β) :=
  e.foldl (fun acc kv => dinsert acc kv.1 kv.2) d

/-! ## Python value semantics helpers -/

/-- Python truthiness (`bool(x)`): `None`, `False`, `0`, `0.0`, `""`, `[]`
and `{}` are falsy, everything else truthy. -/
def pyTruthy : JVal → Bool
  | .null => false
  | .bool b => b
  | .int n => n != 0
  | .float q => q != 0
  | .str s => s ≠ ""
  | .arr xs => !xs.isEmpty
  | .obj kvs => !kvs.isEmpty

/-- Model of `x is None` -/
def JVal.isNull : JVal → Bool
  | .null => true
  | _ => false

/-- Python `==` between an arbitrary value and the string literal `"0"`:
equal strings compare equal, any non-string compares unequal. -/
def eqStrZero : JVal → Bool
  | .str s => s = "0"
  | _ => false

/-- Python `==` between an arbitrary value and the string literal `"print"`
(used by `"print" in <list>`). -/
def eqStrPrint : JVal → Bool
  | .str s => s = "print"
  | _ => false

/-- Digits of an ASCII-decimal string to a number. -/
def digitsToNat (ds : List Char) : Nat :=
  ds.foldl (fun a c => 10 * a + (c.toNat - 48)) 0

/-- One-sided whitespace trim. -/
def trimLeftChars (cs : List Char) : List Char :=
  cs.dropWhile Char.isWhitespace

/-- Python `str.strip()` over the character list (ASCII whitespace). -/
def trimChars (cs : List Char) : List Char :=
  (trimLeftChars (trimLeftChars cs.reverse).reverse)

/-- Python `int(s)` on a string: optional sign, then decimal digits,
surrounding whitespace allowed; anything else raises `ValueError`. -/
def pyIntOfStr (s : String) : Except String Int :=
  let t := trimChars s.data
  match t with
  | '-' :: ds =>
      if !ds.isEmpty && ds.all Char.isDigit then .ok (-(digitsToNat ds : Int))
      else .error "ValueError: invalid literal for int"
  | '+' :: ds =>
      if !ds.isEmpty && ds.all Char.isDigit then .ok (digitsToNat ds : Int)
      else .error "ValueError: invalid literal for int"
  | ds =>
      if !ds.isEmpty && ds.all Char.isDigit then .ok (digitsToNat ds : Int)
      else .error "ValueError: invalid literal for int"

/-- Truncation toward zero, as Python `int(float)`. -/
def ratTrunc (q : ℚ) : Int :=
  if q < 0 then ⌈q⌉ else ⌊q⌋

/-- Python `int(x)`: identity on ints, `True/False ↦ 1/0`, truncation on
floats, decimal parse on strings, `TypeError` otherwise. -/
def pyInt : JVal → Except String Int
  | .int n => .ok n
  | .bool b => .ok (if b then 1 else 0)
  | .float q => .ok (ratTrunc q)
  | .str s => pyIntOfStr s
  | _ => .error "TypeError: int() argument"

/-- Decimal body `<digits>[.<digits>]` of a float literal as an exact
rational, if well-formed. -/
def decimalOfChars (cs : List Char) : Option ℚ :=
  let ip := cs.takeWhile Char.isDigit
  let rest := cs.dropWhile Char.isDigit
  if ip.isEmpty then none
  else
    match rest with
    | [] => some (digitsToNat ip : ℚ)
    | '.' :: fp =>
        if !fp.isEmpty && fp.all Char.isDigit then
          some ((digitsToNat ip : ℚ) +
            (digitsToNat fp : ℚ) / ((10 : ℚ) ^ fp.length))
        else none
    | _ => none

/-- Python `float(s)` on a string, restricted to plain signed decimals (the
exponent and special forms are never exercised by the reports modelled
here); anything else raises `ValueError`. -/
def pyFloatOfStr (s : String) : Except String ℚ :=
  let t := trimChars s.data
  let (neg, body) :=
    match t with
    | '-' :: cs => (true, cs)
    | '+' :: cs => (false, cs)
    | cs => (false, cs)
  match decimalOfChars body with
  | some q => .ok (if neg then -q else q)
  | none => .error "ValueError: could not convert string to float"

/-- Python `float(x)`. -/
def pyFloat : JVal → Except String ℚ
  | .int n => .ok (n : ℚ)
  | .bool b => .ok (if b then 1 else 0)
  | .float q => .ok q
  | .str s => pyFloatOfStr s
  | _ => .error "TypeError: float() argument"

/-- Python `round(q)` on an exact value: nearest integer, ties to even. -/
def pyRound (q : ℚ) : Int :=
  let f := ⌊q⌋
  let r := q - (f : ℚ)
  if r < 1 / 2 then f
  else if 1 / 2 < r then f + 1
  else if f % 2 = 0 then f else f + 1

/-- Substring test over character lists (Python `needle in haystack` for
strings). -/
def containsSub (needle hay : List Char) : Bool :=
  hay.tails.any (fun t => needle.isPrefixOf t)

/-! ## Storage-hub data model

`states_info.py`, `filament_info.py` and `ams.py` are referenced by
`mqtt_client.py` but are not among the sources; the types below are
modelled from the spec. -/

/-- Modelled from the spec: the enumerated gcode state of `states_info.py`
(missing from the sources). §3: decoded from the snapshot with an explicit
unknown fallback instead of a decode error; §4.2 names the
already-paused/already-running checks. -/
inductive GcodeState where
  | IDLE | PREPARE | RUNNING | PAUSE | FINISH | FAILED | UNKNOWN
deriving DecidableEq

/-- Modelled from the spec: construction of a `GcodeState` from the raw
snapshot value, with the spec's unknown fallback. -/
def GcodeState.ofVal : JVal → GcodeState
  | .str "IDLE" => .IDLE
  | .str "PREPARE" => .PREPARE
  | .str "RUNNING" => .RUNNING
  | .str "PAUSE" => .PAUSE
  | .str "FINISH" => .FINISH
  | .str "FAILED" => .FAILED
  | _ => .UNKNOWN

/-- Modelled from the spec: the material-slot record built by
`FilamentTray.from_dict` (`filament_info.py` is missing from the sources).
§3 MaterialSlot: material type id, colour and valid temperature range taken
from the per-slot fragment. -/
structure FilamentTray where
  tray_info_idx : JVal
  tray_color : JVal
  nozzle_temp_min : JVal
  nozzle_temp_max : JVal
  tray_type : JVal

/-- Modelled from the spec: `FilamentTray.from_dict`, reading the slot
attributes out of the per-slot fragment. -/
def FilamentTray.from_dict (d : List (String × JVal)) : FilamentTray :=
  { tray_info_idx := (dget d "tray_info_idx").getD .null
    tray_color := (dget d "tray_color").getD .null
    nozzle_temp_min := (dget d "nozzle_temp_min").getD .null
    nozzle_temp_max := (dget d "nozzle_temp_max").getD .null
    tray_type := (dget d "tray_type").getD .null }

/-- Modelled from the spec: a storage unit (`AMS` of the missing `ams.py`):
humidity, temperature and a slot-index-keyed mapping of material slots
(§3 StorageUnit). -/
structure AMS where
  humidity : Int
  temperature : ℚ
  trays : List (Int × FilamentTray) := []

/-- Modelled from the spec: `AMS.set_filament_tray`, keyed insertion of a
slot into the unit. -/
def AMS.set_filament_tray (a : AMS) (tray_index : Int)
    (filament_tray : FilamentTray) : AMS :=
  { a with trays := dinsert a.trays tray_index filament_tray }

/-! ## StateSynchronizer (`PrinterMQTTClient`) -/

/-- The mutable fields of `PrinterMQTTClient` that the modelled operations
touch: `_data` (the snapshot), `_last_update` and `pushall_timeout` (the
refresh throttle), `strict`, the transport connection status, and
`ams_hub`. -/
structure ClientState where
  data : List (String × JVal)
  lastUpdate : Int
  pushallTimeout : Int
  strict : Bool
  connected : Bool
  amsHub : List (Int × AMS)

/-- The full-refresh command document `{"pushing": {"command": "pushall"}}`. -/
def pushallDoc : JVal :=
  .obj [("pushing", .obj [("command", .str "pushall")])]

/-- Model of `__publish_command`: fail fast (no publish) when the transport is not
connected; otherwise hand the document to the transport and report the
local-dispatch confirmation. The returned list holds the documents that
actually reached the transport. -/
def publishCommand (s : ClientState) (payload : JVal) : Bool × List JVal :=
  if s.connected then (true, [payload]) else (false, [])

/-- Model of `ready()`: true iff the snapshot is non-empty (`bool(self._data)`). -/
def ready (s : ClientState) : Bool :=
  !s.data.isEmpty

/-- Model of `pushall()`: publish the full-refresh command. -/
def pushall (s : ClientState) : Bool × List JVal :=
  publishCommand s pushallDoc

/-- Model of `_update()`: wall-clock throttle around `pushall`. If the minimum
interval has not elapsed, do nothing; otherwise stamp the current time and
issue one `pushall`. -/
def update_ (s : ClientState) (now : Int) : Bool × ClientState × List JVal :=
  if s.lastUpdate + s.pushallTimeout > now then (false, s, [])
  else
    let s' := { s with lastUpdate := now }
    let (ok, pubs) := pushall s'
    (ok, s', pubs)

/-- Model of `__get(key, default)` behind the `__ready` decorator: in strict mode an
empty snapshot raises; otherwise (also when the snapshot is empty in
non-strict mode) `_update()` runs and the snapshot value or the default is
returned. -/
def readField (s : ClientState) (now : Int) (k : String) (dflt : JVal) :
    Except String (JVal × ClientState × List JVal) :=
  if !ready s && s.strict then .error "Printer not found"
  else
    let (_, s', pubs) := update_ s now
    .ok ((dget s'.data k).getD dflt, s', pubs)

/-- The state transition and publish trace of one `__get` call (identity
trace when the strict-mode guard raises). -/
def readStep (s : ClientState) (now : Int) (k : String) (dflt : JVal) :
    ClientState × List JVal :=
  match readField s now k dflt with
  | .error _ => (s, [])
  | .ok (_, s', pubs) => (s', pubs)

/-- Model of `"print" in doc` for an arbitrary parsed payload: key test on dicts,
element test on lists, substring test on strings, `TypeError` on
non-container values. -/
def pyContainsPrint : JVal → Except String Bool
  | .obj kvs => .ok (dget kvs "print").isSome
  | .arr xs => .ok (xs.any eqStrPrint)
  | .str s => .ok (containsSub "print".data s.data)
  | _ => .error "TypeError: argument of type is not iterable"

/-- Model of `doc["print"]`: key lookup on dicts (`KeyError` when absent),
`TypeError` on any other value. -/
def pySubscriptPrint : JVal → Except String JVal
  | .obj kvs =>
      match dget kvs "print" with
      | some v => .ok v
      | none => .error "KeyError: print"
  | _ => .error "TypeError: subscript"

/-- Model of `self._data |= section`: shallow key-wise merge of a dict into the
snapshot; merging a non-dict raises. (Python's `|=` would also accept other
key/value iterables; no inbound report shape exercises that.) -/
def pyMergeIntoData (d : List (String × JVal)) : JVal →
    Except String (List (String × JVal))
  | .obj kvs => .ok (dmerge d kvs)
  | _ => .error "TypeError: unsupported operand |="

/-- Model of `manual_update(doc)`: merge `doc["print"]` into the snapshot when the
payload carries one, no-op otherwise; Python exceptions of the involved
operations propagate. -/
def manualUpdate (s : ClientState) (doc : JVal) : Except String ClientState := do
  let c ← pyContainsPrint doc
  if c then
    let sect ← pySubscriptPrint doc
    let d ← pyMergeIntoData s.data sect
    pure { s with data := d }
  else
    pure s

/-- A raw inbound MQTT payload: either bytes that `json.loads` rejects, or a
parsed JSON document. -/
inductive Payload where
  | malformed (raw : String)
  | json (v : JVal)

/-- Model of `_on_message`: `json.loads` then `manual_update`; a parse failure
raises. -/
def onMessage (s : ClientState) (p : Payload) : Except String ClientState :=
  match p with
  | .malformed _ => .error "json.decoder.JSONDecodeError: Expecting value"
  | .json v => manualUpdate s v

/-- The concrete client state for the C3 analysis: empty snapshot, last
refresh at time 0, 60-second interval, non-strict, transport connected. -/
def c3s : ClientState := ⟨[], 0, 60, false, true, []⟩

/-- The concrete client state for the C4 analysis. -/
def c4s : ClientState := ⟨[("x", .int 1)], 0, 60, false, true, []⟩

/-! ## CommandDispatcher: fan speed (C5), calibration (C6) -/

/-- A Python `int | float` dynamic argument. -/
inductive PySpeed where
  | int (n : Int)
  | float (q : ℚ)

/-- The document published by `__send_gcode_line`. -/
def gcodeLineDoc (gcode_command : String) : JVal :=
  .obj [("print", .obj [("command", .str "gcode_line"),
    ("param", .str gcode_command)])]

/-- Model of `_set_fan_speed`, reduced to the embedded G-code line it builds:
integers are range-checked against 0..255 and emitted as-is; floats are
range-checked against 0.0..1.0 and then converted with `round(255 / speed)`
(note: a division — `0.0` passes the range check and then raises
`ZeroDivisionError`). -/
def set_fan_speed_line (speed : PySpeed) (fan_num : Int) :
    Except String String :=
  match speed with
  | .int n =>
      if n > 255 ∨ n < 0 then
        .error "ValueError: Fan Speed is not between 0 and 255"
      else .ok ("M106 P" ++ toString fan_num ++ " S" ++ toString n ++ "\n")
  | .float q =>
      if q < 0 ∨ q > 1 then
        .error "ValueError: Fan Speed is not between 0 and 1"
      else if q = 0 then .error "ZeroDivisionError: float division by zero"
      else .ok ("M106 P" ++ toString fan_num ++ " S" ++
        toString (pyRound (255 / q)) ++ "\n")

/-- Model of `_set_fan_speed` up to the publish: validation error, or the published
`gcode_line` document and its confirmation. -/
def set_fan_speed (s : ClientState) (speed : PySpeed) (fan_num : Int) :
    Except String (Bool × List JVal) :=
  match set_fan_speed_line speed fan_num with
  | .error e => .error e
  | .ok line => .ok (publishCommand s (gcodeLineDoc line))

/-- Model of `calibration(...)`: the option bitmask, built exactly as in the source
(bed levelling sets bit 1, vibration compensation bit 2, motor-noise
cancellation bit 3). -/
def calibration_bitmask (bed_levelling motor_noise_cancellation
    vibration_compensation : Bool) : Nat :=
  let bitmask : Nat := 0
  let bitmask := if bed_levelling then bitmask ||| (1 <<< 1) else bitmask
  let bitmask := if vibration_compensation then bitmask ||| (1 <<< 2)
    else bitmask
  let bitmask := if motor_noise_cancellation then bitmask ||| (1 <<< 3)
    else bitmask
  bitmask

/-- The calibration command document published by `calibration(...)`. -/
def calibrationDoc (bed_levelling motor_noise_cancellation
    vibration_compensation : Bool) : JVal :=
  .obj [("print", .obj [("command", .str "calibration"),
    ("option", .int (calibration_bitmask bed_levelling
      motor_noise_cancellation vibration_compensation : Int))])]

/-! ## CommandDispatcher: pause / resume (C8) -/

def pauseDoc : JVal := .obj [("print", .obj [("command", .str "pause")])]

def resumeDoc : JVal := .obj [("print", .obj [("command", .str "resume")])]

/-- Model of `get_printer_state()`: `GcodeState(self.__get("gcode_state", -1))`. -/
def get_printer_state (s : ClientState) (now : Int) :
    Except String (GcodeState × ClientState × List JVal) :=
  match readField s now "gcode_state" (.int (-1)) with
  | .error e => .error e
  | .ok (v, s', pubs) => .ok (GcodeState.ofVal v, s', pubs)

/-- Model of `pause_print()`: no-op success if the gcode state already reads as
paused, otherwise publish the pause command and return its confirmation. -/
def pause_print (s : ClientState) (now : Int) :
    Except String (Bool × ClientState × List JVal) :=
  match get_printer_state s now with
  | .error e => .error e
  | .ok (st, s', pubs) =>
      if st = GcodeState.PAUSE then .ok (true, s', pubs)
      else
        let (ok, pubs2) := publishCommand s' pauseDoc
        .ok (ok, s', pubs ++ pubs2)

/-- Model of `resume_print()`: symmetric no-op if already running. -/
def resume_print (s : ClientState) (now : Int) :
    Except String (Bool × ClientState × List JVal) :=
  match get_printer_state s now with
  | .error e => .error e
  | .ok (st, s', pubs) =>
      if st = GcodeState.RUNNING then .ok (true, s', pubs)
      else
        let (ok, pubs2) := publishCommand s' resumeDoc
        .ok (ok, s', pubs ++ pubs2)

/-- The gcode state decoded from the snapshot as `get_printer_state` reads
it. -/
def snapshot_gcode_state (s : ClientState) : GcodeState :=
  GcodeState.ofVal ((dget s.data "gcode_state").getD (.int (-1)))

/-- The concrete client state for the C8 witness: snapshot reporting a
paused printer. -/
def c8s : ClientState :=
  ⟨[("gcode_state", .str "PAUSE")], 0, 60, false, true, []⟩

/-! ## GcodeValidator (C7)

`is_valid_gcode` works on Python strings; it is embedded here over the
character list of the line.  The regexes `^[GM]\d+` (prefix match) and
`^[A-Z]-?\d+(\.\d+)?$` (full match) are rendered as executable character
scanners; character classes are the ASCII ones the regexes denote. -/

/-- Python `str.split()` with no separator: split on whitespace runs and
drop the empty pieces (accumulator-based scanner). -/
def wordsAux : List Char → List Char → List (List Char)
  | [], acc => if acc.isEmpty then [] else [acc.reverse]
  | c :: cs, acc =>
      if c.isWhitespace then
        if acc.isEmpty then wordsAux cs [] else acc.reverse :: wordsAux cs []
      else wordsAux cs (c :: acc)

def pyWords (cs : List Char) : List (List Char) := wordsAux cs []

/-- Model of `match(r"^[GM]\d+", line)`: the line starts with `G` or `M` followed by
at least one digit (prefix match — the rest of the first token is not
constrained). -/
def startsGM : List Char → Bool
  | c1 :: c2 :: _ => (c1 == 'G' || c1 == 'M') && c2.isDigit
  | _ => false

/-- Optional leading minus of `-?`. -/
def stripMinus : List Char → List Char
  | '-' :: cs => cs
  | cs => cs

/-- What may follow the integer part of `\d+(\.\d+)?$`: end of token, or a
dot and a non-empty digit run. -/
def restOk : List Char → Bool
  | [] => true
  | c :: fp => (c == '.') && !fp.isEmpty && fp.all Char.isDigit

/-- Model of `\d+(\.\d+)?$`, scanning the integer part with `takeWhile`. -/
def numBody (cs : List Char) : Bool :=
  !(cs.takeWhile Char.isDigit).isEmpty && restOk (cs.dropWhile Char.isDigit)

/-- Full match of `^[A-Z]-?\d+(\.\d+)?$` for one parameter token. -/
def tokenValid : List Char → Bool
  | [] => false
  | c :: rest => c.isUpper && numBody (stripMinus rest)

/-- Model of `is_valid_gcode(line)`: strip the `;` comment, strip whitespace; the
line must be non-empty and start `[GM]<digit>`, and every token after the
first must be a full parameter match. -/
def is_valid_gcode (line : String) : Bool :=
  let l := trimChars (line.data.takeWhile (fun c => c != ';'))
  if l.isEmpty || !startsGM l then false
  else ((pyWords l).drop 1).all tokenValid

/-- Second rendering of the token grammar, following the spec's words as a
state machine: a non-empty digit run, optionally followed by `.` and a
non-empty digit run (`fracDigits`/`fracAccept`), after a single uppercase
letter and an optional minus. -/
def fracDigits : List Char → Bool
  | [] => true
  | c :: cs => c.isDigit && fracDigits cs

def fracAccept : List Char → Bool
  | [] => false
  | c :: cs => c.isDigit && fracDigits cs

def numAfter : List Char → Bool
  | [] => true
  | c :: cs => if c == '.' then fracAccept cs else c.isDigit && numAfter cs

def numAccept : List Char → Bool
  | [] => false
  | c :: cs => c.isDigit && numAfter cs

def spec_param_ok : List Char → Bool
  | [] => false
  | c :: rest => c.isUpper && numAccept (stripMinus rest)

/-- The spec's validator grammar: strip the trailing comment, trim, reject
the empty line, require the `^[GM]<digits>` head, and require every
subsequent whitespace-separated token to be a parameter match. -/
def spec_gcode_valid (line : String) : Bool :=
  let l := trimChars (line.data.takeWhile (fun c => c != ';'))
  match pyWords l with
  | [] => false
  | _ :: params => startsGM l && params.all spec_param_ok

/-! ## StorageHubModel: `process_ams` (C9) -/

/-- One slot of a unit's `tray` list: the slot id is re-read from the
fragment with the positional index as fallback, and a `FilamentTray` is
built only when the material identifier `n` is present and truthy (the
empty string is falsy); otherwise the slot is skipped. A non-dict slot
fragment raises, as `tray.get` would. -/
def processTray (a : AMS) (idx : Nat) (trayV : JVal) : Except String AMS :=
  match trayV with
  | .obj td =>
      match pyInt ((dget td "id").getD (.int idx)) with
      | .error e => .error e
      | .ok tid =>
          if pyTruthy ((dget td "n").getD .null) then
            .ok (a.set_filament_tray tid (FilamentTray.from_dict td))
          else .ok a
  | _ => .error "AttributeError: get"

/-- Model of `for tray_id, tray in enumerate(trays)`. -/
def processTrays : AMS → Nat → List JVal → Except String AMS
  | a, _, [] => .ok a
  | a, idx, t :: ts =>
      match processTray a idx t with
      | .error e => .error e
      | .ok a2 => processTrays a2 (idx + 1) ts

/-- One storage unit: humidity/temperature default to 0/0.0, the unit id
falls back to the positional index, and the slot list (when truthy) is
walked with `processTrays`. -/
def processUnit (k : Nat) (v : JVal) : Except String (Int × AMS) :=
  match v with
  | .obj vd =>
      match pyInt ((dget vd "humidity").getD (.int 0)) with
      | .error e => .error e
      | .ok humidity =>
      match pyFloat ((dget vd "temp").getD (.float 0)) with
      | .error e => .error e
      | .ok temp =>
      match pyInt ((dget vd "id").getD (.int k)) with
      | .error e => .error e
      | .ok id =>
          let a : AMS := ⟨humidity, temp, []⟩
          let traysV := (dget vd "tray").getD (.arr [])
          if pyTruthy traysV then
            match traysV with
            | .arr ts =>
                match processTrays a 0 ts with
                | .error e => .error e
                | .ok a2 => .ok (id, a2)
            | _ => .error "TypeError: enumerate"
          else .ok (id, a)
  | _ => .error "AttributeError: get"

/-- Model of `for k, v in enumerate(ams_units)`, assigning `hub[id] = ams`. -/
def processUnits : List (Int × AMS) → Nat → List JVal →
    Except String (List (Int × AMS))
  | h, _, [] => .ok h
  | h, k, v :: vs =>
      match processUnit k v with
      | .error e => .error e
      | .ok r => processUnits (dinsert h r.1 r.2) (k + 1) vs

/-- The hub-parsing core of `process_ams`, starting from the freshly reset
`AMSHub()`: an absent/falsy fragment or a unit-existence bitmask equal to
the string `"0"` gives the empty hub; otherwise the unit list is walked.
(A truthy non-list `"ams"` value raises in `enumerate`, a non-dict
fragment raises in `.get`.) -/
def parseAms (amsVal : JVal) : Except String (List (Int × AMS)) :=
  if !pyTruthy amsVal then .ok []
  else
    match amsVal with
    | .obj info =>
        if eqStrZero ((dget info "ams_exist_bits").getD (.str "0")) then
          .ok []
        else
          match (dget info "ams").getD (.arr []) with
          | .arr units => processUnits [] 0 units
          | _ => .error "TypeError: enumerate"
    | _ => .error "AttributeError: get"

/-- Model of `process_ams()`: read the `ams` fragment through `__get` (throttle side
effects and strict-mode guard included), then rebuild `ams_hub` from
scratch from that fragment alone. -/
def process_ams (s : ClientState) (now : Int) :
    Except String (ClientState × List JVal) :=
  match readField s now "ams" .null with
  | .error e => .error e
  | .ok (amsVal, s', pubs) =>
      match parseAms amsVal with
      | .error e => .error e
      | .ok hub => .ok ({ s' with amsHub := hub }, pubs)

/-- Concrete slot fragment for the C9 witness. -/
def tdC9 : List (String × JVal) :=
  [("id", .int 2), ("n", .str "GFL99"), ("tray_info_idx", .str "GFA00"),
    ("tray_color", .str "FF0000FF"), ("nozzle_temp_min", .int 190),
    ("nozzle_temp_max", .int 240), ("tray_type", .str "PLA")]

/-- Concrete client state for the C9 witness. -/
def c9s : ClientState :=
  ⟨[("ams", .obj [("ams_exist_bits", .str "1")])], 0, 60, false, true, []⟩

/-! ## `start_print_3mf` / `Printer.start_print_min` (C10) -/

/-- Python `list(x)` as the dispatcher uses it (its argument is always a
list; other iterables are never passed). -/
def pyList : JVal → Except String JVal
  | .arr xs => .ok (.arr xs)
  | _ => .error "TypeError: list() argument"

/-- Model of `PrinterMQTTClient.start_print_3mf`: normalize an empty (non-`None`)
skip list to `None`, then build the `project_file` command document. -/
def start_print_3mf (filename : String) (plate_number : Int)
    (bed_leveling flow_calibration vibration_calibration bed_type use_ams
      ams_mapping skip_objects : JVal) : Except String JVal :=
  let skip_objects :=
    if !skip_objects.isNull && !pyTruthy skip_objects then .null
    else skip_objects
  match pyList ams_mapping with
  | .error e => .error e
  | .ok amList =>
      .ok (.obj [("print", .obj [
        ("command", .str "project_file"),
        ("param", .str ("Metadata/plate_" ++ toString plate_number
          ++ ".gcode")),
        ("file", .str filename),
        ("bed_leveling", bed_leveling),
        ("bed_type", bed_type),
        ("flow_cali", flow_calibration),
        ("vibration_cali", vibration_calibration),
        ("url", .str ("ftp:///" ++ filename)),
        ("layer_inspect", .bool false),
        ("sequence_id", .str "10000000"),
        ("use_ams", .bool (pyTruthy use_ams)),
        ("ams_mapping", amList),
        ("skip_objects", skip_objects)])])

/-- Model of `Printer.start_print_min`: forwards its five arguments to
`start_print_3mf` *positionally*, so `use_ams`, `ams_mapping` and
`skip_objects` land in the `bed_leveling`, `flow_calibration` and
`vibration_calibration` parameter slots and the remaining parameters keep
their defaults. -/
def start_print_min (filename : String) (plate_number : Int)
    (use_ams ams_mapping skip_objects : JVal) : Except String JVal :=
  start_print_3mf filename plate_number use_ams ams_mapping skip_objects
    (.str "textured_plate") (.bool true) (.arr [.int 0]) .null

/-- A caller-side `list[int] | None` argument. -/
def optIntList : Option (List Int) → JVal
  | none => .null
  | some l => .arr (l.map JVal.int)

/-! ## Theorems -/

theorem dget_dinsert_self {α β : Type} [DecidableEq α]
    (d : List (α × β)) (k : α) (v : β) :
    dget (dinsert d k v) k = some v := by
  induction d with
  | nil => simp [dinsert, dget]
  | cons hd tl ih =>
      obtain ⟨k', v'⟩ := hd
      by_cases h : k' = k
      · simp [dinsert, dget, h]
      · simp [dinsert, dget, h, ih]

theorem dget_dinsert_ne {α β : Type} [DecidableEq α]
    (d : List (α × β)) (k k' : α) (v : β) (h : k' ≠ k) :
    dget (dinsert d k' v) k = dget d k := by
  induction d with
  | nil => simp [dinsert, dget, h]
  | cons hd tl ih =>
      obtain ⟨k₀, v₀⟩ := hd
      by_cases h0 : k₀ = k'
      · subst h0
        simp [dinsert, dget, h, Ne.symm h]
      · by_cases h1 : k₀ = k <;>
          simp [dinsert, dget, h0, h1, Ne.symm h, ih]

theorem dget_dmerge_not_mem {α β : Type} [DecidableEq α]
    (e d : List (α × β)) (k : α) (hk : k ∉ e.map Prod.fst) :
    dget (dmerge d e) k = dget d k := by
  induction e generalizing d with
  | nil => rfl
  | cons hd tl ih =>
      obtain ⟨k₀, v₀⟩ := hd
      simp only [List.map_cons, List.mem_cons] at hk
      push_neg at hk
      have hstep : dmerge d ((k₀, v₀) :: tl) = dmerge (dinsert d k₀ v₀) tl := rfl
      rw [hstep, ih _ hk.2]
      exact dget_dinsert_ne d k k₀ v₀ (Ne.symm hk.1)

/-- Last-write-wins for the shallow merge: a key bound in the right dict reads
back with the right dict's value (the right dict has unique keys, as every
Python dict does). -/
theorem dget_dmerge_of_mem {α β : Type} [DecidableEq α]
    (e d : List (α × β)) (k : α) (v : β)
    (hnd : (e.map Prod.fst).Nodup) (hk : dget e k = some v) :
    dget (dmerge d e) k = some v := by
  induction e generalizing d with
  | nil => simp [dget] at hk
  | cons hd tl ih =>
      obtain ⟨k₀, v₀⟩ := hd
      simp only [List.map_cons, List.nodup_cons] at hnd
      have hstep : dmerge d ((k₀, v₀) :: tl) = dmerge (dinsert d k₀ v₀) tl := rfl
      by_cases h : k₀ = k
      · subst h
        simp only [dget, if_pos rfl] at hk
        obtain rfl : v₀ = v := by injection hk
        rw [hstep, dget_dmerge_not_mem _ _ _ hnd.1, dget_dinsert_self]
      · simp only [dget, if_neg h] at hk
        rw [hstep, ih _ hnd.2 hk]

theorem dget_ne_nil {α β : Type} [DecidableEq α]
    (d : List (α × β)) (k : α) (v : β) (h : dget d k = some v) : d ≠ [] := by
  intro hnil
  subst hnil
  simp [dget] at h

/-- Closed form of `readField`: strict-mode guard, then the throttle either
blocks (interval not elapsed) or stamps the time and attempts one
`pushall`. -/
theorem readField_spec (s : ClientState) (now : Int) (k : String)
    (dflt : JVal) :
    readField s now k dflt =
      if (!ready s && s.strict) = true then .error "Printer not found"
      else if s.lastUpdate + s.pushallTimeout > now then
        .ok ((dget s.data k).getD dflt, s, [])
      else
        .ok ((dget s.data k).getD dflt, { s with lastUpdate := now },
          if s.connected then [pushallDoc] else []) := by
  unfold readField update_ pushall publishCommand
  by_cases h1 : (!ready s && s.strict) = true
  · simp [h1]
  · by_cases h2 : s.lastUpdate + s.pushallTimeout > now
    · simp [h1, h2]
    · by_cases h3 : s.connected = true <;> simp [h1, h2, h3]

/-- Closed form of `readStep`. -/
theorem readStep_spec (s : ClientState) (now : Int) (k : String)
    (dflt : JVal) :
    readStep s now k dflt =
      if (!ready s && s.strict) = true then (s, [])
      else if s.lastUpdate + s.pushallTimeout > now then (s, [])
      else ({ s with lastUpdate := now },
        if s.connected then [pushallDoc] else []) := by
  unfold readStep
  rw [readField_spec]
  split_ifs <;> rfl

/-- A single read publishes at most one document. -/
theorem readStep_pubs_len (s : ClientState) (now : Int) (k : String)
    (dflt : JVal) : (readStep s now k dflt).2.length ≤ 1 := by
  rw [readStep_spec]
  split_ifs <;> simp

/-! ## Claim theorems C1–C4 -/

/-- C1. For reports R1 then R2 merged in order into the snapshot, every
field key present in R2's `print` section subsequently reads back as R2's
value: the merge is a shallow key-wise overwrite and the read returns the
stored value (last-write-wins). -/
theorem C1_last_write_wins (s : ClientState) (p1 p2 : List (String × JVal))
    (k : String) (v dflt : JVal) (now : Int)
    (hnd : (p2.map Prod.fst).Nodup) (hk : dget p2 k = some v) :
    ∃ s1 s2 out,
      manualUpdate s (.obj [("print", .obj p1)]) = .ok s1 ∧
      manualUpdate s1 (.obj [("print", .obj p2)]) = .ok s2 ∧
      readField s2 now k dflt = .ok out ∧ out.1 = v := by
  have hget : dget (dmerge (dmerge s.data p1) p2) k = some v :=
    dget_dmerge_of_mem p2 (dmerge s.data p1) k v hnd hk
  have hne : dmerge (dmerge s.data p1) p2 ≠ [] := dget_ne_nil _ k v hget
  have hempty : (dmerge (dmerge s.data p1) p2).isEmpty = false := by
    cases hd : dmerge (dmerge s.data p1) p2 with
    | nil => exact absurd hd hne
    | cons a l => rfl
  have hguard :
      (!ready { s with data := dmerge (dmerge s.data p1) p2 } &&
        ({ s with data := dmerge (dmerge s.data p1) p2 } : ClientState).strict)
        = false := by
    simp [ready, hempty]
  refine ⟨{ s with data := dmerge s.data p1 },
    { s with data := dmerge (dmerge s.data p1) p2 }, ?_⟩
  by_cases hthr : s.lastUpdate + s.pushallTimeout > now
  · refine ⟨(v, { s with data := dmerge (dmerge s.data p1) p2 }, []),
      rfl, rfl, ?_, rfl⟩
    rw [readField_spec, hguard]
    simp [hthr, hget]
  · refine ⟨(v,
      { s with data := dmerge (dmerge s.data p1) p2, lastUpdate := now },
      if s.connected then [pushallDoc] else []), rfl, rfl, ?_, rfl⟩
    rw [readField_spec, hguard]
    simp [hthr, hget]

theorem C1_last_write_wins_witness :
    ∃ s1 s2 out,
      manualUpdate ⟨[], 0, 60, false, true, []⟩
        (.obj [("print", .obj [("f", .int 1), ("g", .int 7)])]) = .ok s1 ∧
      manualUpdate s1 (.obj [("print", .obj [("f", .int 2)])]) = .ok s2 ∧
      readField s2 100 "f" .null = .ok out ∧ out.1 = .int 2 :=
  C1_last_write_wins ⟨[], 0, 60, false, true, []⟩
    [("f", .int 1), ("g", .int 7)] [("f", .int 2)] "f" (.int 2) .null 100
    (by simp) rfl

/-- C2. Refresh throttle: two reads at wall-clock times within the
minimum interval of each other publish at most one `pushall`; and a read
attempted once the interval has elapsed (transport connected, strict-mode
guard passing) stamps the clock, publishes exactly one `pushall`, and then
returns the snapshot value. -/
theorem C2_refresh_throttle (s : ClientState) (t1 t2 : Int)
    (k1 k2 : String) (d1 d2 : JVal) :
    (t1 ≤ t2 → t2 < t1 + s.pushallTimeout →
      ((readStep s t1 k1 d1).2 ++
        (readStep (readStep s t1 k1 d1).1 t2 k2 d2).2).length ≤ 1) ∧
    (s.lastUpdate + s.pushallTimeout ≤ t1 → s.connected = true →
      (ready s = true ∨ s.strict = false) →
      readField s t1 k1 d1 =
        .ok ((dget s.data k1).getD d1, { s with lastUpdate := t1 },
          [pushallDoc])) := by
  constructor
  · intro hle hwin
    rw [readStep_spec s t1 k1 d1]
    by_cases hg : (!ready s && s.strict) = true
    · simpa [hg] using readStep_pubs_len s t2 k2 d2
    · by_cases hthr : s.lastUpdate + s.pushallTimeout > t1
      · simpa [hg, hthr] using readStep_pubs_len s t2 k2 d2
      · have hthr2 :
            ({ s with lastUpdate := t1 } : ClientState).lastUpdate +
              ({ s with lastUpdate := t1 } : ClientState).pushallTimeout
                > t2 := by
          simpa using hwin
        rw [if_neg hg, if_neg hthr]
        rw [readStep_spec]
        by_cases hg2 :
            (!ready { s with lastUpdate := t1 } &&
              ({ s with lastUpdate := t1 } : ClientState).strict) = true
        · simp [hg2]
          split_ifs <;> simp
        · rw [if_neg hg2, if_pos hthr2]
          split_ifs <;> simp
  · intro helapsed hconn hok
    rw [readField_spec]
    have hg : (!ready s && s.strict) = false := by
      rcases hok with h | h <;> simp [h]
    have hthr : ¬ s.lastUpdate + s.pushallTimeout > t1 := by omega
    rw [hg]
    simp [hthr, hconn]

theorem C2_refresh_throttle_witness :
    ((readStep ⟨[("a", .int 1)], 0, 60, false, true, []⟩ 100 "a" .null).2 ++
      (readStep
        (readStep ⟨[("a", .int 1)], 0, 60, false, true, []⟩ 100 "a" .null).1
        120 "b" .null).2).length ≤ 1 ∧
    readField ⟨[("a", .int 1)], 0, 60, false, true, []⟩ 100 "a" .null =
      .ok (.int 1, ⟨[("a", .int 1)], 100, 60, false, true, []⟩,
        [pushallDoc]) :=
  ⟨(C2_refresh_throttle ⟨[("a", .int 1)], 0, 60, false, true, []⟩
      100 120 "a" "b" .null .null).1 (by norm_num) (by norm_num),
    (C2_refresh_throttle ⟨[("a", .int 1)], 0, 60, false, true, []⟩
      100 120 "a" "b" .null .null).2 (by norm_num) rfl (Or.inl rfl)⟩

/-- C3, counterexample. In non-strict mode with an empty snapshot, a
read does return the given default — but it is *not* free of throttle side
effects: at time 100 (interval elapsed) the read publishes a `pushall` and
advances the last-refresh timestamp, contradicting the claim. -/
theorem C3_counterexample :
    ready c3s = false ∧ c3s.strict = false ∧
    readField c3s 100 "k" (.str "dflt") =
      .ok (.str "dflt", { c3s with lastUpdate := 100 }, [pushallDoc]) ∧
    ({ c3s with lastUpdate := 100 } : ClientState).lastUpdate ≠
      c3s.lastUpdate ∧
    ([pushallDoc] : List JVal) ≠ [] :=
  ⟨rfl, rfl, rfl, by decide, by simp⟩

/-- C3, amended. In non-strict mode with an empty snapshot, a read
returns the given default, but the `__ready` decorator still invokes the
wrapped `__get`, so the throttle does run: if the interval has not elapsed
nothing is published and the timestamp is unchanged, otherwise the
timestamp is stamped to the current time and one `pushall` is attempted
(reaching the transport exactly when connected). -/
theorem C3_amended (s : ClientState) (now : Int) (k : String) (dflt : JVal)
    (hd : s.data = []) (hs : s.strict = false) :
    readField s now k dflt =
      if s.lastUpdate + s.pushallTimeout > now then .ok (dflt, s, [])
      else .ok (dflt, { s with lastUpdate := now },
        if s.connected then [pushallDoc] else []) := by
  rw [readField_spec]
  have hg : (!ready s && s.strict) = false := by simp [hs]
  rw [hg]
  simp [hd, dget]

theorem C3_amended_witness :
    readField c3s 100 "k" (.str "dflt") =
      if c3s.lastUpdate + c3s.pushallTimeout > 100 then
        .ok (.str "dflt", c3s, [])
      else .ok (.str "dflt", { c3s with lastUpdate := 100 },
        if c3s.connected then [pushallDoc] else []) :=
  C3_amended c3s 100 "k" (.str "dflt") rfl rfl

/-- C4, counterexample. Message processing is *not* exception-free on
payloads without a `print` section: a payload of raw bytes that are not
JSON makes `json.loads` raise, and the valid JSON payload `5` makes
`"print" in doc` raise `TypeError`. -/
theorem C4_counterexample :
    onMessage c4s (.json (.int 5)) =
      .error "TypeError: argument of type is not iterable" ∧
    onMessage c4s (.malformed "not json") =
      .error "json.decoder.JSONDecodeError: Expecting value" :=
  ⟨rfl, rfl⟩

/-- C4, amended. A payload parsing to a JSON object without a `print`
key — or to an array with no element equal to `"print"`, or to a string not
containing `"print"` — leaves the snapshot (indeed the whole client state)
unchanged and raises nothing; but non-JSON payloads and payloads parsing to
a number, boolean or null raise. -/
theorem C4_amended (s : ClientState) (kvs : List (String × JVal))
    (xs : List JVal) (str1 : String)
    (hobj : (dget kvs "print").isSome = false)
    (harr : xs.any eqStrPrint = false)
    (hstr : containsSub "print".data str1.data = false) :
    onMessage s (.json (.obj kvs)) = .ok s ∧
    onMessage s (.json (.arr xs)) = .ok s ∧
    onMessage s (.json (.str str1)) = .ok s := by
  refine ⟨?_, ?_, ?_⟩
  · have h : pyContainsPrint (.obj kvs) = .ok false := by
      simp [pyContainsPrint, hobj]
    show manualUpdate s (.obj kvs) = .ok s
    unfold manualUpdate
    rw [h]
    rfl
  · have h : pyContainsPrint (.arr xs) = .ok false := by
      simp [pyContainsPrint, harr]
    show manualUpdate s (.arr xs) = .ok s
    unfold manualUpdate
    rw [h]
    rfl
  · have h : pyContainsPrint (.str str1) = .ok false := by
      simp [pyContainsPrint, hstr]
    show manualUpdate s (.str str1) = .ok s
    unfold manualUpdate
    rw [h]
    rfl

theorem C4_amended_witness :
    onMessage c4s (.json (.obj [("system", .obj [])])) = .ok c4s ∧
    onMessage c4s (.json (.arr [.str "pushing", .int 3])) = .ok c4s ∧
    onMessage c4s (.json (.str "hello")) = .ok c4s :=
  C4_amended c4s [("system", .obj [])] [.str "pushing", .int 3] "hello"
    rfl rfl (by decide)

/-- C5. Evaluation of the fan-speed command at the claim's inputs. The
integer side behaves as claimed (`128 ↦ "M106 P1 S128"`, `256` rejected),
and floats outside 0.0..1.0 are rejected; but a float inside the range is
converted with `round(255 / speed)` — division, not a scaling to 0..255 —
so `0.5` emits `S510`, and `0.0`, though accepted by the range check,
raises `ZeroDivisionError`. -/
theorem C5_fan_speed_eval :
    set_fan_speed_line (.int 128) 1 = .ok "M106 P1 S128\n" ∧
    set_fan_speed_line (.int 256) 1 =
      .error "ValueError: Fan Speed is not between 0 and 255" ∧
    set_fan_speed_line (.float (3 / 2)) 1 =
      .error "ValueError: Fan Speed is not between 0 and 1" ∧
    set_fan_speed_line (.float (1 / 2)) 1 = .ok "M106 P1 S510\n" ∧
    set_fan_speed_line (.float 0) 1 =
      .error "ZeroDivisionError: float division by zero" ∧
    set_fan_speed_line (.float 1) 1 = .ok "M106 P1 S255\n" := by
  have hr : pyRound ((255 : ℚ) / (1 / 2)) = 510 := by
    rw [show (255 : ℚ) / (1 / 2) = ((510 : ℤ) : ℚ) by norm_num]
    simp only [pyRound, Int.floor_intCast]
    norm_num
  have hr1 : pyRound ((255 : ℚ) / 1) = 255 := by
    rw [show (255 : ℚ) / 1 = ((255 : ℤ) : ℚ) by norm_num]
    simp only [pyRound, Int.floor_intCast]
    norm_num
  refine ⟨rfl, rfl, ?_, ?_, ?_, ?_⟩
  · simp only [set_fan_speed_line]
    rw [if_pos (by norm_num : ((3 : ℚ) / 2 < 0 ∨ (3 : ℚ) / 2 > 1))]
  · simp only [set_fan_speed_line]
    rw [if_neg (by norm_num : ¬((1 : ℚ) / 2 < 0 ∨ (1 : ℚ) / 2 > 1)),
      if_neg (by norm_num : ¬((1 : ℚ) / 2 = 0)), hr]
    rfl
  · simp only [set_fan_speed_line]
    rw [if_neg (by norm_num : ¬((0 : ℚ) < 0 ∨ (0 : ℚ) > 1))]
    simp
  · simp only [set_fan_speed_line]
    rw [if_neg (by norm_num : ¬((1 : ℚ) < 0 ∨ (1 : ℚ) > 1)),
      if_neg (by norm_num : ¬((1 : ℚ) = 0)), hr1]
    rfl

/-- C6. For every combination of the three flags, the published
`calibration` command's option bitmask assigns bit 1 (value 2) to bed
levelling, bit 2 (value 4) to vibration compensation and bit 3 (value 8)
to motor-noise cancellation; in particular
`(bed=True, motor=False, vibration=True)` gives option 6. -/
theorem C6_calibration_bitmask :
    (∀ bed motor vibration : Bool,
      calibrationDoc bed motor vibration =
        .obj [("print", .obj [("command", .str "calibration"),
          ("option", .int ((if bed then 2 else 0) +
            (if vibration then 4 else 0) + (if motor then 8 else 0)))])]) ∧
    calibration_bitmask true false true = 6 := by
  constructor
  · intro bed motor vibration
    cases bed <;> cases motor <;> cases vibration <;> rfl
  · rfl

theorem get_printer_state_spec (s : ClientState) (now : Int)
    (hg : (!ready s && s.strict) = false) :
    get_printer_state s now =
      if s.lastUpdate + s.pushallTimeout > now then
        .ok (snapshot_gcode_state s, s, [])
      else
        .ok (snapshot_gcode_state s, { s with lastUpdate := now },
          if s.connected then [pushallDoc] else []) := by
  unfold get_printer_state snapshot_gcode_state
  rw [readField_spec, hg]
  simp only [Bool.false_eq_true, if_false]
  split_ifs <;> rfl

theorem pause_print_eq (s : ClientState) (now : Int) (st : GcodeState)
    (s' : ClientState) (pubs : List JVal)
    (h : get_printer_state s now = .ok (st, s', pubs)) :
    pause_print s now =
      if st = GcodeState.PAUSE then .ok (true, s', pubs)
      else .ok ((publishCommand s' pauseDoc).1, s',
        pubs ++ (publishCommand s' pauseDoc).2) := by
  unfold pause_print
  rw [h]

theorem resume_print_eq (s : ClientState) (now : Int) (st : GcodeState)
    (s' : ClientState) (pubs : List JVal)
    (h : get_printer_state s now = .ok (st, s', pubs)) :
    resume_print s now =
      if st = GcodeState.RUNNING then .ok (true, s', pubs)
      else .ok ((publishCommand s' resumeDoc).1, s',
        pubs ++ (publishCommand s' resumeDoc).2) := by
  unfold resume_print
  rw [h]

/-- C8. When the gcode state read through the synchronizer already
decodes to paused, `pause_print` returns true without publishing the pause
command (the read's own throttle may still publish a `pushall`, never the
pause command); otherwise the pause command is published and its
confirmation returned. `resume_print` behaves symmetrically for the
running state. -/
theorem C8_pause_resume (s : ClientState) (now : Int)
    (hok : ready s = true ∨ s.strict = false) :
    (snapshot_gcode_state s = .PAUSE →
      ∃ s' pubs, pause_print s now = .ok (true, s', pubs) ∧
        pauseDoc ∉ pubs) ∧
    (snapshot_gcode_state s ≠ .PAUSE →
      ∃ s' pubs, pause_print s now =
        .ok (s.connected, s',
          pubs ++ (if s.connected then [pauseDoc] else [])) ∧
        pauseDoc ∉ pubs) ∧
    (snapshot_gcode_state s = .RUNNING →
      ∃ s' pubs, resume_print s now = .ok (true, s', pubs) ∧
        resumeDoc ∉ pubs) ∧
    (snapshot_gcode_state s ≠ .RUNNING →
      ∃ s' pubs, resume_print s now =
        .ok (s.connected, s',
          pubs ++ (if s.connected then [resumeDoc] else [])) ∧
        resumeDoc ∉ pubs) := by
  have hg : (!ready s && s.strict) = false := by
    rcases hok with h | h <;> simp [h]
  have hnp : pauseDoc ≠ pushallDoc := by simp [pauseDoc, pushallDoc]
  have hnr : resumeDoc ≠ pushallDoc := by simp [resumeDoc, pushallDoc]
  have hgps := get_printer_state_spec s now hg
  by_cases hthr : s.lastUpdate + s.pushallTimeout > now
  · rw [if_pos hthr] at hgps
    have hp := pause_print_eq s now _ _ _ hgps
    have hq := resume_print_eq s now _ _ _ hgps
    refine ⟨fun hst => ⟨s, [], ?_, by simp⟩,
            fun hst => ⟨s, [], ?_, by simp⟩,
            fun hst => ⟨s, [], ?_, by simp⟩,
            fun hst => ⟨s, [], ?_, by simp⟩⟩
    · rw [hp, if_pos hst]
    · rw [hp, if_neg hst]
      by_cases hc : s.connected <;> simp [publishCommand, hc]
    · rw [hq, if_pos hst]
    · rw [hq, if_neg hst]
      by_cases hc : s.connected <;> simp [publishCommand, hc]
  · rw [if_neg hthr] at hgps
    have hp := pause_print_eq s now _ _ _ hgps
    have hq := resume_print_eq s now _ _ _ hgps
    refine ⟨fun hst => ⟨{ s with lastUpdate := now },
        if s.connected then [pushallDoc] else [], ?_, ?_⟩,
      fun hst => ⟨{ s with lastUpdate := now },
        if s.connected then [pushallDoc] else [], ?_, ?_⟩,
      fun hst => ⟨{ s with lastUpdate := now },
        if s.connected then [pushallDoc] else [], ?_, ?_⟩,
      fun hst => ⟨{ s with lastUpdate := now },
        if s.connected then [pushallDoc] else [], ?_, ?_⟩⟩
    · rw [hp, if_pos hst]
    · by_cases hc : s.connected <;> simp [hc, hnp]
    · rw [hp, if_neg hst]
      by_cases hc : s.connected <;> simp [publishCommand, hc]
    · by_cases hc : s.connected <;> simp [hc, hnp]
    · rw [hq, if_pos hst]
    · by_cases hc : s.connected <;> simp [hc, hnr]
    · rw [hq, if_neg hst]
      by_cases hc : s.connected <;> simp [publishCommand, hc]
    · by_cases hc : s.connected <;> simp [hc, hnr]

theorem fracDigits_eq (cs : List Char) :
    fracDigits cs = cs.all Char.isDigit := by
  induction cs with
  | nil => rfl
  | cons c cs ih => simp [fracDigits, ih]

theorem fracAccept_eq (cs : List Char) :
    fracAccept cs = (!cs.isEmpty && cs.all Char.isDigit) := by
  cases cs with
  | nil => rfl
  | cons c cs => simp [fracAccept, fracDigits_eq]

theorem numAfter_eq (cs : List Char) :
    numAfter cs = restOk (cs.dropWhile Char.isDigit) := by
  induction cs with
  | nil => rfl
  | cons c cs ih =>
      by_cases hdot : c = '.'
      · subst hdot
        have hd : Char.isDigit '.' = false := by decide
        simp [numAfter, fracAccept_eq, List.dropWhile_cons, hd, restOk]
      · have hbe : (c == '.') = false := by
          simp [hdot]
        by_cases hd : c.isDigit
        · simp [numAfter, hbe, List.dropWhile_cons, hd, ih]
        · simp only [Bool.not_eq_true] at hd
          simp [numAfter, hbe, List.dropWhile_cons, hd, restOk]

theorem numAccept_eq (cs : List Char) : numAccept cs = numBody cs := by
  cases cs with
  | nil => rfl
  | cons c cs =>
      by_cases hd : c.isDigit
      · simp [numAccept, numBody, hd, numAfter_eq, List.takeWhile_cons,
          List.dropWhile_cons]
      · simp only [Bool.not_eq_true] at hd
        simp [numAccept, numBody, hd, List.takeWhile_cons]

theorem spec_param_ok_eq (t : List Char) : spec_param_ok t = tokenValid t := by
  cases t with
  | nil => rfl
  | cons c rest => simp [spec_param_ok, tokenValid, numAccept_eq]

theorem wordsAux_ne_nil (cs acc : List Char) (hacc : acc ≠ []) :
    wordsAux cs acc ≠ [] := by
  induction cs generalizing acc with
  | nil =>
      have : acc.isEmpty = false := by
        cases acc with
        | nil => exact absurd rfl hacc
        | cons a l => rfl
      simp [wordsAux, this]
  | cons c cs ih =>
      by_cases hws : c.isWhitespace
      · have : acc.isEmpty = false := by
          cases acc with
          | nil => exact absurd rfl hacc
          | cons a l => rfl
        simp [wordsAux, hws, this]
      · simpa [wordsAux, hws] using ih (c :: acc) (by simp)

theorem pyWords_ne_nil (c : Char) (cs : List Char)
    (h : c.isWhitespace = false) : pyWords (c :: cs) ≠ [] := by
  show wordsAux (c :: cs) [] ≠ []
  simp only [wordsAux, h, Bool.false_eq_true, if_false]
  exact wordsAux_ne_nil cs [c] (by simp)

theorem dropWhile_head_not {p : Char → Bool} (l : List Char) (c : Char)
    (rest : List Char) (h : l.dropWhile p = c :: rest) : p c = false := by
  induction l with
  | nil => simp [List.dropWhile] at h
  | cons a l ih =>
      by_cases hp : p a
      · rw [List.dropWhile_cons, if_pos hp] at h
        exact ih h
      · rw [List.dropWhile_cons, if_neg hp] at h
        obtain ⟨rfl, -⟩ : a = c ∧ l = rest := by
          constructor <;> [exact (List.cons.injEq .. ▸ h).1;
            exact (List.cons.injEq .. ▸ h).2]
        simpa using hp

theorem trimChars_head (cs : List Char) (c : Char) (rest : List Char)
    (h : trimChars cs = c :: rest) : c.isWhitespace = false := by
  unfold trimChars trimLeftChars at h
  exact dropWhile_head_not _ _ _ h

/-- C7. The validator accepts a line exactly when the spec's grammar
does (comment stripped, trimmed, non-empty, `^[GM]<digits>` head, and every
subsequent whitespace-separated token matching
`^[A-Z]-?<digits>(\.<digits>)?$`), and it decides the claim's five concrete
examples as stated. -/
theorem C7_gcode_validator :
    (∀ line : String, is_valid_gcode line = spec_gcode_valid line) ∧
    is_valid_gcode "G1 X10 Y-5.5" = true ∧
    is_valid_gcode "M104 S200 ; set temp" = true ∧
    is_valid_gcode "G1 X10Y5" = false ∧
    is_valid_gcode "" = false ∧
    is_valid_gcode "; comment only" = false := by
  refine ⟨?_, by decide, by decide, by decide, by decide, by decide⟩
  intro line
  unfold is_valid_gcode spec_gcode_valid
  cases hcase : trimChars (line.data.takeWhile (fun c => c != ';')) with
  | nil => simp [pyWords, wordsAux]
  | cons c rest =>
      have hw : c.isWhitespace = false := trimChars_head _ _ _ hcase
      obtain ⟨w, ws', hpy⟩ : ∃ w ws', pyWords (c :: rest) = w :: ws' := by
        cases hp : pyWords (c :: rest) with
        | nil => exact absurd hp (pyWords_ne_nil c rest hw)
        | cons a b => exact ⟨a, b, rfl⟩
      have hfun : spec_param_ok = tokenValid := funext spec_param_ok_eq
      by_cases hgm : startsGM (c :: rest)
      · simp [hpy, hgm, hfun]
      · simp only [Bool.not_eq_true] at hgm
        simp [hpy, hgm]

theorem C8_pause_resume_witness :
    (∃ s' pubs, pause_print c8s 100 = .ok (true, s', pubs) ∧
      pauseDoc ∉ pubs) ∧
    (∃ s' pubs, resume_print c8s 100 =
      .ok (c8s.connected, s',
        pubs ++ (if c8s.connected then [resumeDoc] else [])) ∧
      resumeDoc ∉ pubs) :=
  ⟨(C8_pause_resume c8s 100 (Or.inl rfl)).1 rfl,
    (C8_pause_resume c8s 100 (Or.inl rfl)).2.2.2 (by decide)⟩

theorem readField_amsHub (s : ClientState) (hub0 : List (Int × AMS))
    (now : Int) (k : String) (dflt : JVal) :
    readField { s with amsHub := hub0 } now k dflt =
      (readField s now k dflt).map
        (fun r => (r.1, { r.2.1 with amsHub := hub0 }, r.2.2)) := by
  rw [readField_spec, readField_spec]
  simp only [ready]
  split_ifs <;> rfl

/-- C9. The storage hub is rebuilt from scratch on every parse (the
result never depends on the previous hub); an absent fragment or a
bitmask equal to `"0"` yields the empty hub; a unit whose slot has the
empty string as material identifier is present with that slot omitted; a
slot with a non-empty material identifier is present with the parsed
attributes. -/
theorem C9_storage_hub :
    (∀ (s : ClientState) (now : Int) (hub0 : List (Int × AMS)),
      (process_ams { s with amsHub := hub0 } now).map (fun r => r.1.amsHub)
        = (process_ams s now).map (fun r => r.1.amsHub)) ∧
    parseAms .null = .ok [] ∧
    (∀ info : List (String × JVal),
      eqStrZero ((dget info "ams_exist_bits").getD (.str "0")) = true →
      parseAms (.obj info) = .ok []) ∧
    (∀ (h i : Int) (q : ℚ) (td : List (String × JVal)),
      dget td "n" = some (.str "") → dget td "id" = none →
      processUnit 0 (.obj [("humidity", .int h), ("temp", .float q),
        ("id", .int i), ("tray", .arr [.obj td])]) =
        .ok (i, ⟨h, q, []⟩)) ∧
    (∀ (h i tid : Int) (q : ℚ) (nm : String) (td : List (String × JVal)),
      dget td "n" = some (.str nm) → nm ≠ "" →
      dget td "id" = some (.int tid) →
      processUnit 0 (.obj [("humidity", .int h), ("temp", .float q),
        ("id", .int i), ("tray", .arr [.obj td])]) =
        .ok (i, ⟨h, q, [(tid, FilamentTray.from_dict td)]⟩)) := by
  refine ⟨?_, rfl, ?_, ?_, ?_⟩
  · intro s now hub0
    unfold process_ams
    rw [readField_amsHub]
    cases hrf : readField s now "ams" .null with
    | error e => rfl
    | ok r =>
        obtain ⟨v, s', pubs⟩ := r
        cases hpa : parseAms v with
        | error e => simp [Except.map, hpa]
        | ok hub => simp [Except.map, hpa]
  · intro info hbits
    unfold parseAms
    by_cases ht : pyTruthy (.obj info)
    · simp [ht, hbits]
    · simp only [Bool.not_eq_true] at ht
      simp [ht]
  · intro h i q td hn hid
    have hpt : processTray ⟨h, q, []⟩ 0 (.obj td) = .ok ⟨h, q, []⟩ := by
      simp [processTray, hid, hn, pyInt, pyTruthy]
    have htr : processTrays ⟨h, q, []⟩ 0 [.obj td] = .ok ⟨h, q, []⟩ := by
      simp [processTrays, hpt]
    show (match processTrays (⟨h, q, []⟩ : AMS) 0 [JVal.obj td] with
          | Except.error e => (Except.error e : Except String (Int × AMS))
          | Except.ok a2 => Except.ok (i, a2)) =
        Except.ok (i, (⟨h, q, []⟩ : AMS))
    rw [htr]
  · intro h i tid q nm td hn hne hid
    have hpt : processTray ⟨h, q, []⟩ 0 (.obj td) =
        .ok (AMS.set_filament_tray ⟨h, q, []⟩ tid
          (FilamentTray.from_dict td)) := by
      simp [processTray, hid, hn, pyInt, pyTruthy, hne]
    have htr : processTrays ⟨h, q, []⟩ 0 [.obj td] =
        .ok ⟨h, q, [(tid, FilamentTray.from_dict td)]⟩ := by
      simp [processTrays, hpt, AMS.set_filament_tray, dinsert]
    show (match processTrays (⟨h, q, []⟩ : AMS) 0 [JVal.obj td] with
          | Except.error e => (Except.error e : Except String (Int × AMS))
          | Except.ok a2 => Except.ok (i, a2)) =
        Except.ok (i, (⟨h, q, [(tid, FilamentTray.from_dict td)]⟩ : AMS))
    rw [htr]

theorem C9_storage_hub_witness :
    (process_ams { c9s with amsHub := [(7, ⟨1, 2, []⟩)] } 50).map
        (fun r => r.1.amsHub) =
      (process_ams c9s 50).map (fun r => r.1.amsHub) ∧
    parseAms (.obj [("ams_exist_bits", .str "0"),
      ("ams", .arr [.obj []])]) = .ok [] ∧
    processUnit 0 (.obj [("humidity", .int 40), ("temp", .float 25),
      ("id", .int 1), ("tray", .arr [.obj [("n", .str "")]])]) =
      .ok (1, ⟨40, 25, []⟩) ∧
    processUnit 0 (.obj [("humidity", .int 40), ("temp", .float 25),
      ("id", .int 1), ("tray", .arr [.obj tdC9])]) =
      .ok (1, ⟨40, 25, [(2, FilamentTray.from_dict tdC9)]⟩) :=
  ⟨C9_storage_hub.1 c9s 50 [(7, ⟨1, 2, []⟩)],
    C9_storage_hub.2.2.1 [("ams_exist_bits", .str "0"),
      ("ams", .arr [.obj []])] rfl,
    C9_storage_hub.2.2.2.1 40 1 25 [("n", .str "")] rfl rfl,
    C9_storage_hub.2.2.2.2 40 1 2 25 "GFL99" tdC9 rfl (by decide) rfl⟩

/-- C10. Because `start_print_min` binds its arguments positionally,
the published `project_file` document always carries `use_ams=True`,
`ams_mapping=[0]` and `skip_objects=null` regardless of the caller's
arguments, while `bed_leveling` receives the caller's `use_ams` value (and
`flow_cali`/`vibration_cali` receive the caller's `ams_mapping` and
`skip_objects`). -/
theorem C10_start_print_min (filename : String) (plate_number : Int)
    (use_ams : Bool) (ams_mapping : List Int)
    (skip_objects : Option (List Int)) :
    start_print_min filename plate_number (.bool use_ams)
      (.arr (ams_mapping.map JVal.int)) (optIntList skip_objects) =
      .ok (.obj [("print", .obj [
        ("command", .str "project_file"),
        ("param", .str ("Metadata/plate_" ++ toString plate_number
          ++ ".gcode")),
        ("file", .str filename),
        ("bed_leveling", .bool use_ams),
        ("bed_type", .str "textured_plate"),
        ("flow_cali", .arr (ams_mapping.map JVal.int)),
        ("vibration_cali", optIntList skip_objects),
        ("url", .str ("ftp:///" ++ filename)),
        ("layer_inspect", .bool false),
        ("sequence_id", .str "10000000"),
        ("use_ams", .bool true),
        ("ams_mapping", .arr [.int 0]),
        ("skip_objects", .null)])]) := rfl

end Bambu
